import Mathlib

/-!
Shallow embedding of the knowledge-distillation core of
`knowledge_distillation_implementation_end_to_end.ipynb`.

The two components with design substance are embedded from the source:

* `KnowledgeDistillationTrainingArguments` (notebook cell defining the
  configuration subclass): stores the two scalars `alpha` and `temperature`
  on top of the base training configuration, with defaults 0.5 and 2.0 and
  no further behavior.
* `KnowledgeDistillationTrainer.compute_loss` (notebook cell defining the
  trainer subclass): the overridden loss step.

Real tensors are embedded as `List (List ℝ)` (a batch of per-class logit
rows); float arithmetic is embedded as exact real arithmetic.  The two
places where the Python code can fail to produce a finite scalar are made
explicit with `Option`:

* `self.teacher_model(**inputs)` raises when the trainer was constructed
  without a teacher (`teacher_model=None` default), embedded as `none`;
* division of the logits by `temperature = 0` produces non-finite floats
  (±inf/NaN) which propagate to the returned loss, embedded as `none`
  (real division by zero would silently return 0 and misrepresent the
  float semantics).
-/

/-- A batch as consumed by the loss step: the forward-pass inputs
(input ids / attention mask, kept abstract as `ι`) together with the
ground-truth label column. -/
structure Batch (ι : Type) where
  inputs : ι
  labels : List ℕ

/-- A sequence-classification model, embedded as its logit function: for
given forward-pass inputs it produces one row of per-class logits per
batch element. -/
structure Model (ι : Type) where
  logitsOf : ι → List (List ℝ)

/-- The part of the framework's model output that `compute_loss` reads:
the supervised loss and the logits. -/
structure ModelOutput where
  loss : ℝ
  logits : List (List ℝ)

/-- Sum of exponentials of a logit row (the softmax normalizer). -/
noncomputable def sumExp (row : List ℝ) : ℝ :=
  (row.map Real.exp).sum

/-- One row of `F.softmax(·, dim=-1)`. -/
noncomputable def softmaxRow (row : List ℝ) : List ℝ :=
  row.map (fun x => Real.exp x / sumExp row)

/-- One row of `F.log_softmax(·, dim=-1)`. -/
noncomputable def logSoftmaxRow (row : List ℝ) : List ℝ :=
  row.map (fun x => x - Real.log (sumExp row))

/-- Row-wise `F.softmax(·, dim=-1)` over the batch. -/
noncomputable def softmax (m : List (List ℝ)) : List (List ℝ) :=
  m.map softmaxRow

/-- Row-wise `F.log_softmax(·, dim=-1)` over the batch. -/
noncomputable def logSoftmax (m : List (List ℝ)) : List (List ℝ) :=
  m.map logSoftmaxRow

/-- Tensor/scalar division `logits / temperature`: every entry divided. -/
noncomputable def scaleBy (m : List (List ℝ)) (t : ℝ) : List (List ℝ) :=
  m.map (fun row => row.map (fun x => x / t))

/-- One row of `nn.KLDivLoss`: the input holds log-probabilities, the
target holds probabilities, and the pointwise term is
`target * (log target - input)`. -/
noncomputable def klDivRow (inputRow targetRow : List ℝ) : ℝ :=
  ((targetRow.zip inputRow).map (fun p => p.1 * (Real.log p.1 - p.2))).sum

/-- Full `nn.KLDivLoss(reduction="batchmean")`: the pointwise terms are summed
over all entries and divided by the batch size `input.size(0)`. -/
noncomputable def klDivBatchmean (input target : List (List ℝ)) : ℝ :=
  ((input.zip target).map (fun p => klDivRow p.1 p.2)).sum / (input.length : ℝ)

/-- Per-example cross-entropy `-log_softmax(logits)[label]`, as computed by
the framework's sequence-classification head. -/
noncomputable def crossEntropyRow (logits : List ℝ) (label : ℕ) : ℝ :=
  -((logSoftmaxRow logits).getD label 0)

/-- Batch-mean cross-entropy of a logit matrix against the label column
(the framework's `CrossEntropyLoss` default mean reduction). -/
noncomputable def crossEntropyMean (logits : List (List ℝ)) (labels : List ℕ) : ℝ :=
  ((logits.zip labels).map (fun p => crossEntropyRow p.1 p.2)).sum / (logits.length : ℝ)

/-- The forward pass `model(**inputs)`: it computes the logits from the
inputs, and the supervised loss from those logits and the label column.
The labels influence only the `loss` field, never the `logits` field. -/
noncomputable def Model.forward {ι : Type} (m : Model ι) (b : Batch ι) : ModelOutput :=
  { loss := crossEntropyMean (m.logitsOf b.inputs) b.labels
    logits := m.logitsOf b.inputs }

/-- The configuration subclass `KnowledgeDistillationTrainingArguments`:
the base training configuration extended with the two distillation
scalars, which is all the subclass adds.  The base
configuration fields are out of scope and not represented. -/
structure KnowledgeDistillationTrainingArguments where
  alpha : ℝ
  temperature : ℝ

/-- The subclass constructor with both hyperparameters supplied
explicitly: `super().__init__(...)` followed by `self.alpha = alpha` and
`self.temperature = temperature`.  The body contains no range check of
either scalar, so any real values are stored as given. -/
def KnowledgeDistillationTrainingArguments.ofHyper (alpha temperature : ℝ) :
    KnowledgeDistillationTrainingArguments :=
  { alpha := alpha, temperature := temperature }

/-- The subclass constructor with neither hyperparameter supplied: the
Python defaults `alpha=0.5, temperature=2.0` are used (both floats are
exact, so they embed as 1/2 and 2). -/
noncomputable def KnowledgeDistillationTrainingArguments.ofDefaults :
    KnowledgeDistillationTrainingArguments :=
  KnowledgeDistillationTrainingArguments.ofHyper (1 / 2) 2

/-- The trainer subclass `KnowledgeDistillationTrainer`, holding the
configuration and the (optional) reference to the teacher model. -/
structure KnowledgeDistillationTrainer (ι : Type) where
  args : KnowledgeDistillationTrainingArguments
  teacher_model : Option (Model ι)

/-- The trainer constructor when `teacher_model` is not supplied: the
parameter's Python default is `None`. -/
def KnowledgeDistillationTrainer.ofArgs {ι : Type}
    (args : KnowledgeDistillationTrainingArguments) : KnowledgeDistillationTrainer ι :=
  { args := args, teacher_model := none }

/-- The trainer constructor with a teacher model supplied, as in the
notebook's training cell. -/
def KnowledgeDistillationTrainer.ofTeacher {ι : Type}
    (args : KnowledgeDistillationTrainingArguments) (teacher : Model ι) :
    KnowledgeDistillationTrainer ι :=
  { args := args, teacher_model := some teacher }

/-- The value returned by `compute_loss`: either the scalar loss alone, or
(when `return_outputs` is set) the scalar loss paired with the student's
raw outputs. -/
inductive LossResult where
  | scalar (loss : ℝ)
  | withOutputs (loss : ℝ) (outputs : ModelOutput)

/-- The loss step `KnowledgeDistillationTrainer.compute_loss`, translated
statement by statement from the notebook cell:

* student forward pass, extracting `loss_ce` and `logits_student`;
* teacher forward pass `self.teacher_model(**inputs)` — a `None` teacher
  makes the call fail, embedded as `none`;
* `loss_kd = T² * KLDivLoss(batchmean)(log_softmax(student/T), softmax(teacher/T))`
  — for `T = 0` the float divisions produce non-finite values that
  propagate to the returned loss, embedded as `none`;
* `loss = alpha * loss_ce + (1 - alpha) * loss_kd`, returned alone or
  with the student outputs depending on `return_outputs`. -/
noncomputable def KnowledgeDistillationTrainer.compute_loss {ι : Type}
    (self : KnowledgeDistillationTrainer ι) (model : Model ι) (inputs : Batch ι)
    (return_outputs : Bool) : Option LossResult :=
  let outputs_student := model.forward inputs
  let loss_ce := outputs_student.loss
  let logits_student := outputs_student.logits
  match self.teacher_model with
  | none => none
  | some teacher =>
      let logits_teacher := (teacher.forward inputs).logits
      if self.args.temperature = 0 then none
      else
        let loss_kd := self.args.temperature ^ 2 *
          klDivBatchmean (logSoftmax (scaleBy logits_student self.args.temperature))
                         (softmax (scaleBy logits_teacher self.args.temperature))
        let loss := self.args.alpha * loss_ce + (1 - self.args.alpha) * loss_kd
        if return_outputs then some (LossResult.withOutputs loss outputs_student)
        else some (LossResult.scalar loss)

/-- The loss step as a state transformer on the trainer.  The Python
method body contains no assignment to `self`, to `self.teacher_model`,
or to any teacher parameter — it only reads them — so the post-state is
the pre-state. -/
noncomputable def KnowledgeDistillationTrainer.compute_lossSt {ι : Type}
    (self : KnowledgeDistillationTrainer ι) (model : Model ι) (inputs : Batch ι)
    (return_outputs : Bool) : Option LossResult × KnowledgeDistillationTrainer ι :=
  (self.compute_loss model inputs return_outputs, self)

/-- Spec-side quantity `L_ce`: "the student's standard supervised loss on
the batch". -/
noncomputable def spec_Lce {ι : Type} (model : Model ι) (b : Batch ι) : ℝ :=
  (model.forward b).loss

/-- Spec-side quantity `D`: "divide both logit sets by T" and take the
Kullback–Leibler divergence, batch-mean reduction, of the teacher's
softened distribution from the student's softened distribution, as the
loss step computes it. -/
noncomputable def spec_D (logits_student logits_teacher : List (List ℝ)) (T : ℝ) : ℝ :=
  klDivBatchmean (logSoftmax (scaleBy logits_student T))
                 (softmax (scaleBy logits_teacher T))

/-- Spec-side blended loss: `α·L_ce + (1−α)·T²·D`. -/
noncomputable def spec_loss (a T Lce D : ℝ) : ℝ :=
  a * Lce + (1 - a) * T ^ 2 * D

/-- One row of the textbook Kullback–Leibler divergence
`KL(p ‖ q) = Σ pᵢ · log (pᵢ / qᵢ)`. -/
noncomputable def klPointwise (p q : List ℝ) : ℝ :=
  ((p.zip q).map (fun s => s.1 * Real.log (s.1 / s.2))).sum

/-- Spec-side batch-mean textbook Kullback–Leibler divergence of the
distributions `P` (teacher side) from the distributions `Q` (student
side): the per-row divergences summed and averaged over the batch. -/
noncomputable def spec_KL (P Q : List (List ℝ)) : ℝ :=
  ((P.zip Q).map (fun s => klPointwise s.1 s.2)).sum / (P.length : ℝ)

/-! ### Supporting lemmas -/

/-- The softmax normalizer of a nonempty row is positive. -/
lemma sumExp_pos {s : List ℝ} (h : s ≠ []) : 0 < sumExp s := by
  unfold sumExp
  refine List.sum_pos _ ?_ ?_
  · intro a ha
    rcases List.mem_map.mp ha with ⟨x, -, rfl⟩
    exact Real.exp_pos x
  · simpa using h

/-- Row-level bridge: the KLDivLoss row of the student's log-softmax
against the teacher's softmax is the textbook Kullback–Leibler row of the
teacher's softmax from the student's softmax. -/
lemma klDivRow_eq_klPointwise (s t : List ℝ) :
    klDivRow (logSoftmaxRow s) (softmaxRow t) = klPointwise (softmaxRow t) (softmaxRow s) := by
  unfold klDivRow klPointwise softmaxRow logSoftmaxRow
  rw [List.zip_map, List.zip_map, List.map_map, List.map_map]
  refine congrArg List.sum (List.map_congr_left ?_)
  rintro ⟨a, b⟩ hmem
  obtain ⟨ha, hb⟩ := List.of_mem_zip hmem
  have hSs : (0 : ℝ) < sumExp s := sumExp_pos (List.ne_nil_of_mem hb)
  have hSt : (0 : ℝ) < sumExp t := sumExp_pos (List.ne_nil_of_mem ha)
  have hp : (0 : ℝ) < Real.exp a / sumExp t := div_pos (Real.exp_pos a) hSt
  have hq : (0 : ℝ) < Real.exp b / sumExp s := div_pos (Real.exp_pos b) hSs
  simp only [Function.comp_apply, Prod.map_apply]
  rw [Real.log_div hp.ne' hq.ne', Real.log_div (Real.exp_pos b).ne' hSs.ne', Real.log_exp]

/-- Batch-level bridge: for equal batch sizes, the code's
`KLDivLoss(batchmean)` of the student's log-softmax against the teacher's
softmax is the spec's batch-mean Kullback–Leibler divergence of the
teacher's softened distributions from the student's. -/
lemma klDivBatchmean_eq_spec_KL (S T : List (List ℝ)) (h : S.length = T.length) :
    klDivBatchmean (logSoftmax S) (softmax T) = spec_KL (softmax T) (softmax S) := by
  unfold klDivBatchmean spec_KL logSoftmax softmax
  rw [List.zip_map, List.zip_map, List.map_map, List.map_map,
    List.length_map, List.length_map, h, ← List.zip_swap S T, List.map_map]
  congr 1
  refine congrArg List.sum (List.map_congr_left ?_)
  rintro ⟨s, t⟩ -
  simp only [Function.comp_apply, Prod.map_apply, Prod.swap_prod_mk]
  exact klDivRow_eq_klPointwise s t

/-- Zipping a list with itself pairs every element with itself. -/
lemma zip_self_eq {α : Type} (l : List α) : l.zip l = l.map (fun a => (a, a)) := by
  induction l with
  | nil => rfl
  | cons a l ih => simp [List.zip_cons_cons, ih]

/-- The textbook Kullback–Leibler row of a distribution from itself is 0. -/
lemma klPointwise_self (p : List ℝ) : klPointwise p p = 0 := by
  unfold klPointwise
  rw [zip_self_eq, List.map_map]
  refine List.sum_eq_zero ?_
  intro x hx
  rcases List.mem_map.mp hx with ⟨a, -, rfl⟩
  rcases eq_or_ne a 0 with rfl | h
  · simp
  · simp [Function.comp_apply, div_self h]

/-- The code's divergence term vanishes when both logit matrices agree. -/
lemma klDivBatchmean_self (S : List (List ℝ)) :
    klDivBatchmean (logSoftmax S) (softmax S) = 0 := by
  rw [klDivBatchmean_eq_spec_KL S S rfl]
  unfold spec_KL
  rw [zip_self_eq, List.map_map]
  have hz : ((softmax S).map ((fun s => klPointwise s.1 s.2) ∘ fun a => (a, a))).sum = 0 := by
    refine List.sum_eq_zero ?_
    intro x hx
    rcases List.mem_map.mp hx with ⟨a, -, rfl⟩
    exact klPointwise_self a
  rw [hz, zero_div]

/-- Unfolding of the loss step in the non-failing case: with a teacher
present and a nonzero temperature, `compute_loss` returns the blended
scalar, alone or with the student outputs according to `return_outputs`. -/
lemma compute_loss_eq {ι : Type} (t : KnowledgeDistillationTrainer ι) (tm m : Model ι)
    (b : Batch ι) (hteach : t.teacher_model = some tm) (hT : t.args.temperature ≠ 0) :
    (t.compute_loss m b false = some (LossResult.scalar (t.args.alpha * (m.forward b).loss +
        (1 - t.args.alpha) * (t.args.temperature ^ 2 *
          spec_D (m.logitsOf b.inputs) (tm.logitsOf b.inputs) t.args.temperature)))) ∧
    (t.compute_loss m b true = some (LossResult.withOutputs (t.args.alpha * (m.forward b).loss +
        (1 - t.args.alpha) * (t.args.temperature ^ 2 *
          spec_D (m.logitsOf b.inputs) (tm.logitsOf b.inputs) t.args.temperature))
        (m.forward b))) := by
  constructor <;>
    simp only [KnowledgeDistillationTrainer.compute_loss, hteach, if_neg hT,
      Model.forward, spec_D, Bool.false_eq_true, if_false, if_true]

/-! ### Concrete fixtures used by the witness theorems -/

/-- Concrete student model: one batch row of two class logits. -/
noncomputable def wStudent : Model Unit :=
  { logitsOf := fun _ => [[1, 0]] }

/-- Concrete teacher model with the same logit shape as the student. -/
noncomputable def wTeacher : Model Unit :=
  { logitsOf := fun _ => [[0, 1]] }

/-- Concrete batch: trivial inputs, one ground-truth label. -/
def wBatch : Batch Unit :=
  { inputs := (), labels := [0] }

/-- Trainer fixture with the default hyperparameters and a teacher. -/
noncomputable def wTrainerHalf : KnowledgeDistillationTrainer Unit :=
  KnowledgeDistillationTrainer.ofTeacher (KnowledgeDistillationTrainingArguments.ofHyper (1 / 2) 2) wTeacher

/-- Trainer fixture with blend weight 1 and a teacher. -/
noncomputable def wTrainerOne : KnowledgeDistillationTrainer Unit :=
  KnowledgeDistillationTrainer.ofTeacher (KnowledgeDistillationTrainingArguments.ofHyper 1 2) wTeacher

/-- Trainer fixture with blend weight 0 and a teacher. -/
noncomputable def wTrainerZero : KnowledgeDistillationTrainer Unit :=
  KnowledgeDistillationTrainer.ofTeacher (KnowledgeDistillationTrainingArguments.ofHyper 0 2) wTeacher

/-- Trainer fixture whose teacher is the student model itself (identical
logits on every batch). -/
noncomputable def wTrainerSelf : KnowledgeDistillationTrainer Unit :=
  KnowledgeDistillationTrainer.ofTeacher (KnowledgeDistillationTrainingArguments.ofHyper (1 / 2) 2) wStudent

/-- Trainer fixture with temperature 0 and a teacher. -/
noncomputable def wTrainerT0 : KnowledgeDistillationTrainer Unit :=
  KnowledgeDistillationTrainer.ofTeacher (KnowledgeDistillationTrainingArguments.ofHyper (1 / 2) 0) wTeacher

/-- Trainer fixture constructed without a teacher model. -/
noncomputable def wTrainerNoTeacher : KnowledgeDistillationTrainer Unit :=
  KnowledgeDistillationTrainer.ofArgs (KnowledgeDistillationTrainingArguments.ofHyper (1 / 2) 2)

/-! ### Claims -/

/-- C1: for every student model, teacher model, and batch, the scalar loss
returned by `compute_loss` equals `α·L_ce + (1−α)·T²·D` where `L_ce` is
the student's supervised loss, `α` the configured blend weight, `T` the
configured temperature, and `D` the distillation divergence term; with
`return_outputs` set, the step returns the student's raw outputs alongside
the same scalar. -/
theorem c1_compute_loss_blended_formula {ι : Type} (t : KnowledgeDistillationTrainer ι)
    (tm m : Model ι) (b : Batch ι)
    (hteach : t.teacher_model = some tm) (hT : t.args.temperature ≠ 0) :
    t.compute_loss m b false = some (LossResult.scalar
      (spec_loss t.args.alpha t.args.temperature (spec_Lce m b)
        (spec_D (m.logitsOf b.inputs) (tm.logitsOf b.inputs) t.args.temperature))) ∧
    t.compute_loss m b true = some (LossResult.withOutputs
      (spec_loss t.args.alpha t.args.temperature (spec_Lce m b)
        (spec_D (m.logitsOf b.inputs) (tm.logitsOf b.inputs) t.args.temperature))
      (m.forward b)) := by
  obtain ⟨h1, h2⟩ := compute_loss_eq t tm m b hteach hT
  have hL : t.args.alpha * (m.forward b).loss + (1 - t.args.alpha) *
      (t.args.temperature ^ 2 *
        spec_D (m.logitsOf b.inputs) (tm.logitsOf b.inputs) t.args.temperature)
      = spec_loss t.args.alpha t.args.temperature (spec_Lce m b)
        (spec_D (m.logitsOf b.inputs) (tm.logitsOf b.inputs) t.args.temperature) := by
    unfold spec_loss spec_Lce
    ring
  rw [hL] at h1 h2
  exact ⟨h1, h2⟩

/-- C1 witness at the default hyperparameters. -/
theorem c1_witness :
    wTrainerHalf.teacher_model = some wTeacher ∧ wTrainerHalf.args.temperature ≠ 0 ∧
    wTrainerHalf.compute_loss wStudent wBatch false = some (LossResult.scalar
      (spec_loss wTrainerHalf.args.alpha wTrainerHalf.args.temperature
        (spec_Lce wStudent wBatch)
        (spec_D (wStudent.logitsOf wBatch.inputs) (wTeacher.logitsOf wBatch.inputs)
          wTrainerHalf.args.temperature))) :=
  ⟨rfl, two_ne_zero,
    (c1_compute_loss_blended_formula wTrainerHalf wTeacher wStudent wBatch rfl two_ne_zero).1⟩

/-- C2: the divergence term blended into the loss is obtained by dividing
both logit sets by `T` and taking the batch-mean Kullback–Leibler
divergence of the teacher's softened (softmax) distribution from the
student's softened distribution, scaled by `T²`. -/
theorem c2_divergence_is_scaled_kl {ι : Type} (t : KnowledgeDistillationTrainer ι)
    (tm m : Model ι) (b : Batch ι)
    (hteach : t.teacher_model = some tm) (hT : t.args.temperature ≠ 0)
    (hlen : (m.logitsOf b.inputs).length = (tm.logitsOf b.inputs).length) :
    t.compute_loss m b false = some (LossResult.scalar
      (t.args.alpha * spec_Lce m b + (1 - t.args.alpha) * (t.args.temperature ^ 2 *
        spec_KL (softmax (scaleBy (tm.logitsOf b.inputs) t.args.temperature))
                (softmax (scaleBy (m.logitsOf b.inputs) t.args.temperature))))) := by
  obtain ⟨h1, -⟩ := compute_loss_eq t tm m b hteach hT
  have hD : spec_D (m.logitsOf b.inputs) (tm.logitsOf b.inputs) t.args.temperature
      = spec_KL (softmax (scaleBy (tm.logitsOf b.inputs) t.args.temperature))
                (softmax (scaleBy (m.logitsOf b.inputs) t.args.temperature)) := by
    unfold spec_D
    refine klDivBatchmean_eq_spec_KL _ _ ?_
    simp [scaleBy, hlen]
  rw [hD] at h1
  exact h1

/-- C2 witness at the default hyperparameters and matching logit shapes. -/
theorem c2_witness :
    wTrainerHalf.teacher_model = some wTeacher ∧ wTrainerHalf.args.temperature ≠ 0 ∧
    (wStudent.logitsOf wBatch.inputs).length = (wTeacher.logitsOf wBatch.inputs).length ∧
    wTrainerHalf.compute_loss wStudent wBatch false = some (LossResult.scalar
      (wTrainerHalf.args.alpha * spec_Lce wStudent wBatch +
        (1 - wTrainerHalf.args.alpha) * (wTrainerHalf.args.temperature ^ 2 *
          spec_KL
            (softmax (scaleBy (wTeacher.logitsOf wBatch.inputs) wTrainerHalf.args.temperature))
            (softmax (scaleBy (wStudent.logitsOf wBatch.inputs) wTrainerHalf.args.temperature))))) :=
  ⟨rfl, two_ne_zero, rfl,
    c2_divergence_is_scaled_kl wTrainerHalf wTeacher wStudent wBatch rfl two_ne_zero rfl⟩

/-- C3 counterexample: constructing the configuration with `α = 2` and
`T = −1`, both outside the hyperparameter domain `α ∈ [0,1]`, `T > 0`, is
not rejected — the out-of-range scalars are stored as given. -/
theorem c3_counterexample :
    (KnowledgeDistillationTrainingArguments.ofHyper 2 (-1)).alpha = 2 ∧
    (KnowledgeDistillationTrainingArguments.ofHyper 2 (-1)).temperature = -1 ∧
    ¬((KnowledgeDistillationTrainingArguments.ofHyper 2 (-1)).alpha ≤ 1 ∧
      0 < (KnowledgeDistillationTrainingArguments.ofHyper 2 (-1)).temperature) := by
  refine ⟨rfl, rfl, ?_⟩
  rintro ⟨h1, -⟩
  rw [KnowledgeDistillationTrainingArguments.ofHyper] at h1
  norm_num at h1

/-- C3 amended: constructing the configuration with no explicit `α` or `T`
yields `α = 0.5` and `T = 2.0`, and construction stores any supplied
scalars unvalidated (no domain check); beyond storing these two scalars
the extension adds no other behavior. -/
theorem c3_defaults_no_validation :
    KnowledgeDistillationTrainingArguments.ofDefaults.alpha = 1 / 2 ∧
    KnowledgeDistillationTrainingArguments.ofDefaults.temperature = 2 ∧
    ∀ a T : ℝ, (KnowledgeDistillationTrainingArguments.ofHyper a T).alpha = a ∧
      (KnowledgeDistillationTrainingArguments.ofHyper a T).temperature = T :=
  ⟨rfl, rfl, fun _ _ => ⟨rfl, rfl⟩⟩

/-- C4: when the configured blend weight `α` equals 1, `compute_loss`
returns exactly the student's plain supervised loss, with no contribution
from the teacher's logits — replacing the teacher by any other model
leaves the returned loss unchanged. -/
theorem c4_alpha_one_pure_ce {ι : Type} (t : KnowledgeDistillationTrainer ι)
    (tm m : Model ι) (b : Batch ι)
    (hteach : t.teacher_model = some tm) (hT : t.args.temperature ≠ 0)
    (halpha : t.args.alpha = 1) :
    t.compute_loss m b false = some (LossResult.scalar (spec_Lce m b)) ∧
    ∀ tm₂ : Model ι,
      (KnowledgeDistillationTrainer.ofTeacher t.args tm₂).compute_loss m b false
        = some (LossResult.scalar (spec_Lce m b)) := by
  have key : ∀ (t' : KnowledgeDistillationTrainer ι) (tm' : Model ι),
      t'.args = t.args → t'.teacher_model = some tm' →
      t'.compute_loss m b false = some (LossResult.scalar (spec_Lce m b)) := by
    intro t' tm' hargs hteach'
    obtain ⟨h1, -⟩ := compute_loss_eq t' tm' m b hteach' (by rw [hargs]; exact hT)
    have hL : t'.args.alpha * (m.forward b).loss + (1 - t'.args.alpha) *
        (t'.args.temperature ^ 2 *
          spec_D (m.logitsOf b.inputs) (tm'.logitsOf b.inputs) t'.args.temperature)
        = spec_Lce m b := by
      rw [hargs, halpha]
      unfold spec_Lce
      ring
    rw [hL] at h1
    exact h1
  exact ⟨key t tm rfl hteach,
    fun tm₂ => key (KnowledgeDistillationTrainer.ofTeacher t.args tm₂) tm₂ rfl rfl⟩

/-- C4 witness: with `α = 1` the loss is the supervised loss and survives
swapping the teacher for the student model. -/
theorem c4_witness :
    wTrainerOne.teacher_model = some wTeacher ∧ wTrainerOne.args.temperature ≠ 0 ∧
    wTrainerOne.args.alpha = 1 ∧
    wTrainerOne.compute_loss wStudent wBatch false
      = some (LossResult.scalar (spec_Lce wStudent wBatch)) ∧
    (KnowledgeDistillationTrainer.ofTeacher wTrainerOne.args wStudent).compute_loss
        wStudent wBatch false
      = some (LossResult.scalar (spec_Lce wStudent wBatch)) :=
  ⟨rfl, two_ne_zero, rfl,
    (c4_alpha_one_pure_ce wTrainerOne wTeacher wStudent wBatch rfl two_ne_zero rfl).1,
    (c4_alpha_one_pure_ce wTrainerOne wTeacher wStudent wBatch rfl two_ne_zero rfl).2 wStudent⟩

/-- C5: when the configured blend weight `α` equals 0, `compute_loss`
returns exactly `T²·D`, and the value is independent of the batch's
ground-truth labels — changing only the labels leaves the loss
unchanged. -/
theorem c5_alpha_zero_pure_distillation {ι : Type} (t : KnowledgeDistillationTrainer ι)
    (tm m : Model ι) (b : Batch ι)
    (hteach : t.teacher_model = some tm) (hT : t.args.temperature ≠ 0)
    (halpha : t.args.alpha = 0) :
    t.compute_loss m b false = some (LossResult.scalar (t.args.temperature ^ 2 *
      spec_D (m.logitsOf b.inputs) (tm.logitsOf b.inputs) t.args.temperature)) ∧
    ∀ labels₂ : List ℕ,
      t.compute_loss m { inputs := b.inputs, labels := labels₂ } false
        = t.compute_loss m b false := by
  have key : ∀ b' : Batch ι, b'.inputs = b.inputs →
      t.compute_loss m b' false = some (LossResult.scalar (t.args.temperature ^ 2 *
        spec_D (m.logitsOf b.inputs) (tm.logitsOf b.inputs) t.args.temperature)) := by
    intro b' hb
    obtain ⟨h1, -⟩ := compute_loss_eq t tm m b' hteach hT
    have hL : t.args.alpha * (m.forward b').loss + (1 - t.args.alpha) *
        (t.args.temperature ^ 2 *
          spec_D (m.logitsOf b'.inputs) (tm.logitsOf b'.inputs) t.args.temperature)
        = t.args.temperature ^ 2 *
          spec_D (m.logitsOf b.inputs) (tm.logitsOf b.inputs) t.args.temperature := by
      rw [halpha, hb]
      ring
    rw [hL] at h1
    exact h1
  refine ⟨key b rfl, fun labels₂ => ?_⟩
  rw [key b rfl, key { inputs := b.inputs, labels := labels₂ } rfl]

/-- C5 witness: with `α = 0` the loss is the pure distillation term and is
unchanged when the labels are replaced. -/
theorem c5_witness :
    wTrainerZero.teacher_model = some wTeacher ∧ wTrainerZero.args.temperature ≠ 0 ∧
    wTrainerZero.args.alpha = 0 ∧
    wTrainerZero.compute_loss wStudent wBatch false
      = some (LossResult.scalar (wTrainerZero.args.temperature ^ 2 *
          spec_D (wStudent.logitsOf wBatch.inputs) (wTeacher.logitsOf wBatch.inputs)
            wTrainerZero.args.temperature)) ∧
    wTrainerZero.compute_loss wStudent { inputs := wBatch.inputs, labels := [1] } false
      = wTrainerZero.compute_loss wStudent wBatch false :=
  ⟨rfl, two_ne_zero, rfl,
    (c5_alpha_zero_pure_distillation wTrainerZero wTeacher wStudent wBatch rfl two_ne_zero rfl).1,
    (c5_alpha_zero_pure_distillation wTrainerZero wTeacher wStudent wBatch rfl two_ne_zero rfl).2 [1]⟩

/-- C6: when the student's logits coincide with the teacher's logits on
the batch, the divergence term is 0 and `compute_loss` returns exactly
`α·L_ce`. -/
theorem c6_identical_logits_zero_divergence {ι : Type} (t : KnowledgeDistillationTrainer ι)
    (tm m : Model ι) (b : Batch ι)
    (hteach : t.teacher_model = some tm) (hT : t.args.temperature ≠ 0)
    (hlog : m.logitsOf b.inputs = tm.logitsOf b.inputs) :
    spec_D (m.logitsOf b.inputs) (tm.logitsOf b.inputs) t.args.temperature = 0 ∧
    t.compute_loss m b false
      = some (LossResult.scalar (t.args.alpha * spec_Lce m b)) := by
  have hD : spec_D (m.logitsOf b.inputs) (tm.logitsOf b.inputs) t.args.temperature = 0 := by
    rw [← hlog]
    unfold spec_D
    exact klDivBatchmean_self _
  refine ⟨hD, ?_⟩
  obtain ⟨h1, -⟩ := compute_loss_eq t tm m b hteach hT
  rw [hD] at h1
  have hL : t.args.alpha * (m.forward b).loss + (1 - t.args.alpha) *
      (t.args.temperature ^ 2 * 0) = t.args.alpha * spec_Lce m b := by
    unfold spec_Lce
    ring
  rw [hL] at h1
  exact h1

/-- C6 witness: the trainer whose teacher is the student itself has zero
divergence and loss `α·L_ce`. -/
theorem c6_witness :
    wTrainerSelf.teacher_model = some wStudent ∧ wTrainerSelf.args.temperature ≠ 0 ∧
    wStudent.logitsOf wBatch.inputs = wStudent.logitsOf wBatch.inputs ∧
    spec_D (wStudent.logitsOf wBatch.inputs) (wStudent.logitsOf wBatch.inputs)
      wTrainerSelf.args.temperature = 0 ∧
    wTrainerSelf.compute_loss wStudent wBatch false
      = some (LossResult.scalar (wTrainerSelf.args.alpha * spec_Lce wStudent wBatch)) :=
  ⟨rfl, two_ne_zero, rfl,
    (c6_identical_logits_zero_divergence wTrainerSelf wStudent wStudent wBatch rfl two_ne_zero rfl).1,
    (c6_identical_logits_zero_divergence wTrainerSelf wStudent wStudent wBatch rfl two_ne_zero rfl).2⟩

/-- C7: the loss step leaves the trainer state — in particular the held
teacher model and hence its parameters — unchanged: as a state
transformer it returns exactly the value of `compute_loss` and the
unmodified trainer, so the step performs only the forward passes and the
loss arithmetic and never writes to the teacher. -/
theorem c7_teacher_unchanged {ι : Type} (t : KnowledgeDistillationTrainer ι)
    (m : Model ι) (b : Batch ι) (r : Bool) :
    (t.compute_lossSt m b r).2 = t ∧
    (t.compute_lossSt m b r).2.teacher_model = t.teacher_model ∧
    (t.compute_lossSt m b r).1 = t.compute_loss m b r :=
  ⟨rfl, rfl, rfl⟩

/-- C8: the loss step is deterministic — two invocations of
`compute_loss` with the same trainer state (configuration, teacher, and
framework random state), the same student model state, and the same batch
return equal loss values. -/
theorem c8_deterministic {ι : Type} (t₁ t₂ : KnowledgeDistillationTrainer ι)
    (m₁ m₂ : Model ι) (b₁ b₂ : Batch ι) (r : Bool)
    (ht : t₁ = t₂) (hm : m₁ = m₂) (hb : b₁ = b₂) :
    t₁.compute_loss m₁ b₁ r = t₂.compute_loss m₂ b₂ r := by
  rw [ht, hm, hb]

/-- C8 witness: the two invocations at the concrete fixture agree. -/
theorem c8_witness :
    wTrainerHalf.compute_loss wStudent wBatch false
      = wTrainerHalf.compute_loss wStudent wBatch false :=
  c8_deterministic wTrainerHalf wTrainerHalf wStudent wStudent wBatch wBatch false rfl rfl rfl

/-- C9: the temperature is stored by the constructor without any range
check (any real value, including 0 and negatives, is accepted), the logit
division in the loss step is unguarded, and the step yields a loss value
exactly under the precondition `temperature ≠ 0`: at `temperature = 0`
the division produces non-finite values and no loss is returned. -/
theorem c9_unguarded_temperature_division {ι : Type} (t : KnowledgeDistillationTrainer ι)
    (tm m : Model ι) (b : Batch ι) (r : Bool)
    (hteach : t.teacher_model = some tm) :
    (∀ a T : ℝ, (KnowledgeDistillationTrainingArguments.ofHyper a T).temperature = T) ∧
    (t.args.temperature = 0 → t.compute_loss m b r = none) ∧
    (t.args.temperature ≠ 0 → (t.compute_loss m b r).isSome = true) := by
  refine ⟨fun _ _ => rfl, ?_, ?_⟩ <;> intro hT <;>
    cases r <;>
      simp [KnowledgeDistillationTrainer.compute_loss, hteach, hT]

/-- C9 witness: at temperature 0 with a teacher present the loss step
returns no value, while the default temperature 2 yields one. -/
theorem c9_witness :
    wTrainerT0.teacher_model = some wTeacher ∧ wTrainerT0.args.temperature = 0 ∧
    wTrainerT0.compute_loss wStudent wBatch false = none :=
  ⟨rfl, rfl, (c9_unguarded_temperature_division wTrainerT0 wTeacher wStudent wBatch false rfl).2.1 rfl⟩

/-- C10: the trainer's `teacher_model` parameter defaults to `None`, and
when no teacher was provided at construction every call of `compute_loss`
fails at the teacher forward pass instead of returning a loss. -/
theorem c10_missing_teacher_fails {ι : Type} (t : KnowledgeDistillationTrainer ι)
    (m : Model ι) (b : Batch ι) (r : Bool) (h : t.teacher_model = none) :
    t.compute_loss m b r = none ∧
    ∀ args : KnowledgeDistillationTrainingArguments,
      (KnowledgeDistillationTrainer.ofArgs args : KnowledgeDistillationTrainer ι).teacher_model
        = none := by
  refine ⟨?_, fun _ => rfl⟩
  simp [KnowledgeDistillationTrainer.compute_loss, h]

/-- C10 witness: a trainer constructed without a teacher yields no loss. -/
theorem c10_witness :
    wTrainerNoTeacher.teacher_model = none ∧
    wTrainerNoTeacher.compute_loss wStudent wBatch false = none :=
  ⟨rfl, (c10_missing_teacher_fails wTrainerNoTeacher wStudent wBatch false rfl).1⟩
